import Mathlib

/-!
Shallow embedding of the smart-routing engine of `PathFindingLinkFactory`
(grid-based obstacle rasterization, coordinate translation, matrix caching
and path emission).  JavaScript numbers are modelled as rationals (`ℚ`),
matrices as `List (List ℕ)` of 0/1 cells, and the mutable factory fields
(`canvasMatrix`, `routingMatrix`, `hAdjustmentFactor`, `vAdjustmentFactor`)
as an explicit state record threaded through the operations.  Operations
that can fault at runtime (lodash `minBy`/`maxBy` dereferenced on an empty
collection, `pathCoords[0]` on an empty array) return `Option`.
-/

namespace PathFinding

/-- `ROUTING_SCALING_FACTOR`: the fixed scaling factor (5). -/
def ROUTING_SCALING_FACTOR : ℚ := 5

/-- An axis-aligned bounding box `{x, y, width, height}` in diagram space. -/
structure Box where
  x : ℚ
  y : ℚ
  width : ℚ
  height : ℚ
deriving DecidableEq

/-- A link waypoint `{x, y}` (no width/height). -/
structure LinkPoint where
  x : ℚ
  y : ℚ
deriving DecidableEq

/-- A link: optional source/target ports (nullable in the source) and its
ordered waypoints. -/
structure Link where
  sourcePort : Option Box
  targetPort : Option Box
  points : List LinkPoint
deriving DecidableEq

/-- The geometry snapshot read from `engine.diagramModel`: all nodes and all
links. -/
structure DiagramModel where
  nodes : List Box
  links : List Link
deriving DecidableEq

/-- The DOM canvas element; only `offsetWidth`/`offsetHeight` are read. -/
structure Canvas where
  offsetWidth : ℚ
  offsetHeight : ℚ
deriving DecidableEq

/-- `allNodesCoords` of `calculateMatrixDimensions`: one box per node. -/
def allNodesCoords (m : DiagramModel) : List Box :=
  m.nodes

/-- `allPortsCoords` of `calculateMatrixDimensions`: for every link its
source and target port, flattened, with null ports filtered out.  The same
collection is rebuilt (as `allElements`) inside `markPorts`. -/
def allPortsCoords (m : DiagramModel) : List Box :=
  ((m.links.map fun l => [l.sourcePort, l.targetPort]).flatten).filterMap id

/-- `allPointsCoords` of `calculateMatrixDimensions`: every link waypoint as
a box with `width = height = 0`. -/
def allPointsCoords (m : DiagramModel) : List Box :=
  ((m.links.map fun l => l.points).flatten).map fun p => ⟨p.x, p.y, 0, 0⟩

/-- The concatenation `_.concat(allNodesCoords, allPortsCoords,
allPointsCoords)` over which the four extrema are taken. -/
def allCoords (m : DiagramModel) : List Box :=
  allNodesCoords m ++ allPortsCoords m ++ allPointsCoords m

/-- lodash `_.minBy(list, f)`: the first element of the list attaining the
minimal value of `f`; `undefined` (here `none`) on an empty list. -/
def minBy (f : Box → ℚ) : List Box → Option Box
  | [] => none
  | b :: bs => some (bs.foldl (fun acc c => if f c < f acc then c else acc) b)

/-- lodash `_.maxBy(list, f)`: the first element of the list attaining the
maximal value of `f`; `undefined` (here `none`) on an empty list. -/
def maxBy (f : Box → ℚ) : List Box → Option Box
  | [] => none
  | b :: bs => some (bs.foldl (fun acc c => if f acc < f c then c else acc) b)

/-- The record returned by `calculateMatrixDimensions`. -/
structure MatrixDimensions where
  width : ℚ
  hAdjustmentFactor : ℚ
  height : ℚ
  vAdjustmentFactor : ℚ
deriving DecidableEq

/-- `calculateMatrixDimensions`.  In the source, `_.minBy(...).x` on an
empty concatenation dereferences `undefined` and throws; that fault is
modelled as `none`. -/
def calculateMatrixDimensions (m : DiagramModel) (canvas : Canvas) :
    Option MatrixDimensions :=
  match minBy (fun b => b.x) (allCoords m),
        maxBy (fun b => b.x + b.width) (allCoords m),
        minBy (fun b => b.y) (allCoords m),
        maxBy (fun b => b.y + b.height) (allCoords m) with
  | some minXel, some maxXel, some minYel, some maxYel =>
    let minX : ℚ :=
      (⌊min minXel.x 0 / ROUTING_SCALING_FACTOR⌋ : ℤ) * ROUTING_SCALING_FACTOR
    let maxX : ℚ := max (maxXel.x + maxXel.width) canvas.offsetWidth
    let minY : ℚ :=
      (⌊min minYel.y 0 / ROUTING_SCALING_FACTOR⌋ : ℤ) * ROUTING_SCALING_FACTOR
    let maxY : ℚ := max (maxYel.y + maxYel.height) canvas.offsetHeight
    some { width := ((⌈|minX| + maxX⌉ : ℤ) : ℚ),
           hAdjustmentFactor := |minX| / ROUTING_SCALING_FACTOR + 1,
           height := ((⌈|minY| + maxY⌉ : ℤ) : ℚ),
           vAdjustmentFactor := |minY| / ROUTING_SCALING_FACTOR + 1 }
  | _, _, _, _ => none

/-- The matrix allocation of `calculateCanvasMatrix`:
`_.range(0, matrixHeight)` rows of `new Array(matrixWidth).fill(0)`, where
`matrixWidth = Math.ceil(width / ROUTING_SCALING_FACTOR)` and likewise for
the height. -/
def calculateCanvasMatrixGrid (d : MatrixDimensions) : List (List ℕ) :=
  let matrixWidth := (⌈d.width / ROUTING_SCALING_FACTOR⌉ : ℤ).toNat
  let matrixHeight := (⌈d.height / ROUTING_SCALING_FACTOR⌉ : ℤ).toNat
  List.replicate matrixHeight (List.replicate matrixWidth 0)

/-- The mutable fields of the factory instance. -/
structure FactoryState where
  canvasMatrix : List (List ℕ)
  routingMatrix : List (List ℕ)
  hAdjustmentFactor : ℚ
  vAdjustmentFactor : ℚ
deriving DecidableEq

/-- The field initializers of the class: empty matrices, zero adjustments. -/
def initialState : FactoryState :=
  { canvasMatrix := [], routingMatrix := [], hAdjustmentFactor := 0,
    vAdjustmentFactor := 0 }

/-- `translateRoutingX(x, reverse = false)`:
`x + hAdjustmentFactor * (reverse ? -1 : 1)`. -/
def translateRoutingX (hAdjustmentFactor : ℚ) (x : ℚ)
    (reverse : Bool := false) : ℚ :=
  x + hAdjustmentFactor * (if reverse then -1 else 1)

/-- `translateRoutingY(y, reverse = false)`:
`y + vAdjustmentFactor * (reverse ? -1 : 1)`. -/
def translateRoutingY (vAdjustmentFactor : ℚ) (y : ℚ)
    (reverse : Bool := false) : ℚ :=
  y + vAdjustmentFactor * (if reverse then -1 else 1)

/-- A JavaScript array index: `a[q]` is an own element exactly when `q` is a
non-negative integer below the length; the bound is checked separately, so
`qIndex` only converts an integer-valued non-negative rational to `ℕ`. -/
def qIndex (q : ℚ) : Option ℕ :=
  if q.den = 1 ∧ 0 ≤ q.num then some q.num.toNat else none

/-- `markMatrixPoint`: set `matrix[y][x] = 1` when `matrix[y]` and
`matrix[y][x]` are defined (i.e. both indices are integral and in range);
otherwise leave the matrix unchanged. -/
def markMatrixPoint (matrix : List (List ℕ)) (x y : ℚ) : List (List ℕ) :=
  match qIndex y with
  | none => matrix
  | some r =>
    match matrix[r]? with
    | none => matrix
    | some row =>
      match qIndex x with
      | none => matrix
      | some c => if c < row.length then matrix.set r (row.set c 1) else matrix

/-- The integers from `lo` to `hi` inclusive (empty when `hi < lo`). -/
def intRange (lo hi : ℤ) : List ℤ :=
  (List.range (hi + 1 - lo).toNat).map fun (i : ℕ) => lo + (i : ℤ)

/-- The `(x, y)` loop pairs rasterized for one box: in both `markNodes` and
`markPorts` the outer loop runs `for (x = startX - 1; x <= endX + 1; x++)`
and the inner loop runs `for (y = startY - 1; y < endY + 1; y++)` — so `x`
reaches `endX + 1` but `y` stops at `endY`. -/
def paddedCells (b : Box) : List (ℤ × ℤ) :=
  let startX := ⌊b.x / ROUTING_SCALING_FACTOR⌋
  let endX := ⌈(b.x + b.width) / ROUTING_SCALING_FACTOR⌉
  let startY := ⌊b.y / ROUTING_SCALING_FACTOR⌋
  let endY := ⌈(b.y + b.height) / ROUTING_SCALING_FACTOR⌉
  ((intRange (startX - 1) (endX + 1)).map fun gx =>
    (intRange (startY - 1) endY).map fun gy => (gx, gy)).flatten

/-- One iteration of the doubly nested marking loop:
`markMatrixPoint(matrix, translateRoutingX(x), translateRoutingY(y))`. -/
def markTranslated (hAdj vAdj : ℚ) (matrix : List (List ℕ)) (p : ℤ × ℤ) :
    List (List ℕ) :=
  markMatrixPoint matrix (translateRoutingX hAdj (p.1 : ℚ))
    (translateRoutingY vAdj (p.2 : ℚ))

/-- The shared per-box body of `markNodes` and `markPorts`: rasterize one
bounding box onto the matrix. -/
def markBox (hAdj vAdj : ℚ) (matrix : List (List ℕ)) (b : Box) :
    List (List ℕ) :=
  (paddedCells b).foldl (markTranslated hAdj vAdj) matrix

/-- `markNodes`: rasterize every node box, in order. -/
def markNodes (hAdj vAdj : ℚ) (m : DiagramModel) (matrix : List (List ℕ)) :
    List (List ℕ) :=
  (allNodesCoords m).foldl (markBox hAdj vAdj) matrix

/-- `markPorts`: rasterize every non-null source/target port, in order
(`allElements` in the source is the same collection as `allPortsCoords`). -/
def markPorts (hAdj vAdj : ℚ) (m : DiagramModel) (matrix : List (List ℕ)) :
    List (List ℕ) :=
  (allPortsCoords m).foldl (markBox hAdj vAdj) matrix

/-- `calculateCanvasMatrix`: compute the dimensions, store both adjustment
factors on the instance and allocate the all-zero canvas matrix. -/
def calculateCanvasMatrix (m : DiagramModel) (canvas : Canvas)
    (s : FactoryState) : Option FactoryState :=
  (calculateMatrixDimensions m canvas).map fun d =>
    { s with hAdjustmentFactor := d.hAdjustmentFactor,
             vAdjustmentFactor := d.vAdjustmentFactor,
             canvasMatrix := calculateCanvasMatrixGrid d }

/-- `getCanvasMatrix`: recompute only when the cached `canvasMatrix` has
length 0, then return the cached field. -/
def getCanvasMatrix (m : DiagramModel) (canvas : Canvas) (s : FactoryState) :
    Option (List (List ℕ) × FactoryState) :=
  if s.canvasMatrix.length = 0 then
    (calculateCanvasMatrix m canvas s).map fun t => (t.canvasMatrix, t)
  else some (s.canvasMatrix, s)

/-- `calculateRoutingMatrix`: deep-copy the canvas matrix (value copy in
this pure model), mark nodes then ports on the copy, and store the result
in `routingMatrix`.  The translation inside marking uses the adjustment
factors currently stored on the instance. -/
def calculateRoutingMatrix (m : DiagramModel) (canvas : Canvas)
    (s : FactoryState) : Option FactoryState :=
  (getCanvasMatrix m canvas s).map fun p =>
    let t := p.2
    let matrix := markPorts t.hAdjustmentFactor t.vAdjustmentFactor m
      (markNodes t.hAdjustmentFactor t.vAdjustmentFactor m p.1)
    { t with routingMatrix := matrix }

/-- `getRoutingMatrix`: recompute only when the cached `routingMatrix` has
length 0, then return the cached field. -/
def getRoutingMatrix (m : DiagramModel) (canvas : Canvas) (s : FactoryState) :
    Option (List (List ℕ) × FactoryState) :=
  if s.routingMatrix.length = 0 then
    (calculateRoutingMatrix m canvas s).map fun t => (t.routingMatrix, t)
  else some (s.routingMatrix, s)

/-- Modelled from the spec: the cache invalidation operation is not in the
source excerpt (only its effect is described).  Per the spec, invalidation
"clears both matrices together" so that the next read recomputes. -/
def invalidate (s : FactoryState) : FactoryState :=
  { s with canvasMatrix := [], routingMatrix := [] }

/-- A drawable path command (paths-js `moveto`/`lineto`). -/
inductive PathCommand where
  | moveto (x y : ℚ)
  | lineto (x y : ℚ)
deriving DecidableEq

/-- `generateDynamicPath`: `moveto` at the first point scaled by
`ROUTING_SCALING_FACTOR`, then `lineto` at every further point in order.
`pathCoords[0]` on an empty array faults (`none`). -/
def generateDynamicPath (pathCoords : List (ℚ × ℚ)) :
    Option (List PathCommand) :=
  match pathCoords with
  | [] => none
  | p :: rest =>
    some (PathCommand.moveto (p.1 * ROUTING_SCALING_FACTOR)
        (p.2 * ROUTING_SCALING_FACTOR)
      :: rest.map fun c =>
        PathCommand.lineto (c.1 * ROUTING_SCALING_FACTOR)
          (c.2 * ROUTING_SCALING_FACTOR))

/-- Row `r` of a matrix (empty when out of range). -/
def rowAt (matrix : List (List ℕ)) (r : ℕ) : List ℕ :=
  matrix[r]?.getD []

/-- Cell `(r, c)` of a matrix (0 when out of range). -/
def cellAt (matrix : List (List ℕ)) (r c : ℕ) : ℕ :=
  (rowAt matrix r)[c]?.getD 0

/-- The padded grid rectangle the marking loops actually traverse for a box:
columns `⌊x/s⌋ - 1 .. ⌈(x+width)/s⌉ + 1`, rows `⌊y/s⌋ - 1 .. ⌈(y+height)/s⌉`
(the row upper bound has no `+ 1` because the inner loop condition is
`y < endY + 1`). -/
def inPaddedBox (b : Box) (gx gy : ℤ) : Prop :=
  ⌊b.x / ROUTING_SCALING_FACTOR⌋ - 1 ≤ gx ∧
  gx ≤ ⌈(b.x + b.width) / ROUTING_SCALING_FACTOR⌉ + 1 ∧
  ⌊b.y / ROUTING_SCALING_FACTOR⌋ - 1 ≤ gy ∧
  gy ≤ ⌈(b.y + b.height) / ROUTING_SCALING_FACTOR⌉

/-- The minimum of a list of rationals (`none` on an empty list). -/
def listMinQ : List ℚ → Option ℚ
  | [] => none
  | q :: qs => some (qs.foldl min q)

/-- The maximum of a list of rationals (`none` on an empty list). -/
def listMaxQ : List ℚ → Option ℚ
  | [] => none
  | q :: qs => some (qs.foldl max q)

/-- The dimension computation exactly as the spec words it: `minX =
floor(min(0, min of box.x over all boxes) / s) × s`, `maxX = max(max of
box.x + box.width over all boxes, viewport width)`, symmetrically for the Y
axis, `width = ceil(|minX| + maxX)`, `height = ceil(|minY| + maxY)`,
`hAdjustment = |minX| / s + 1`, `vAdjustment = |minY| / s + 1`.  Stated over
plain list minima/maxima so that it can be compared with
`calculateMatrixDimensions`, which takes its extrema through lodash
`minBy`/`maxBy`. -/
def specMatrixDimensions (m : DiagramModel) (canvas : Canvas) :
    Option MatrixDimensions :=
  match listMinQ ((allCoords m).map fun b => b.x),
        listMaxQ ((allCoords m).map fun b => b.x + b.width),
        listMinQ ((allCoords m).map fun b => b.y),
        listMaxQ ((allCoords m).map fun b => b.y + b.height) with
  | some mx, some wx, some my, some wy =>
    let minX : ℚ :=
      (⌊min 0 mx / ROUTING_SCALING_FACTOR⌋ : ℤ) * ROUTING_SCALING_FACTOR
    let maxX : ℚ := max wx canvas.offsetWidth
    let minY : ℚ :=
      (⌊min 0 my / ROUTING_SCALING_FACTOR⌋ : ℤ) * ROUTING_SCALING_FACTOR
    let maxY : ℚ := max wy canvas.offsetHeight
    some { width := ((⌈|minX| + maxX⌉ : ℤ) : ℚ),
           hAdjustmentFactor := |minX| / ROUTING_SCALING_FACTOR + 1,
           height := ((⌈|minY| + maxY⌉ : ℤ) : ℚ),
           vAdjustmentFactor := |minY| / ROUTING_SCALING_FACTOR + 1 }
  | _, _, _, _ => none

/-- The record `calculateMatrixDimensions` builds once the four extremal
boxes are found; factored out so proofs can name it. -/
def dimsOf (minXel maxXel minYel maxYel : Box) (canvas : Canvas) :
    MatrixDimensions :=
  let minX : ℚ :=
    (⌊min minXel.x 0 / ROUTING_SCALING_FACTOR⌋ : ℤ) * ROUTING_SCALING_FACTOR
  let maxX : ℚ := max (maxXel.x + maxXel.width) canvas.offsetWidth
  let minY : ℚ :=
    (⌊min minYel.y 0 / ROUTING_SCALING_FACTOR⌋ : ℤ) * ROUTING_SCALING_FACTOR
  let maxY : ℚ := max (maxYel.y + maxYel.height) canvas.offsetHeight
  { width := ((⌈|minX| + maxX⌉ : ℤ) : ℚ),
    hAdjustmentFactor := |minX| / ROUTING_SCALING_FACTOR + 1,
    height := ((⌈|minY| + maxY⌉ : ℤ) : ℚ),
    vAdjustmentFactor := |minY| / ROUTING_SCALING_FACTOR + 1 }

/-- The single node of the 800×600 scenario: position (100, 100), size
(50, 50). -/
def scenarioNode : Box := ⟨100, 100, 50, 50⟩

/-- The 800×600 scenario geometry: one node, no links. -/
def scenarioModel : DiagramModel := ⟨[scenarioNode], []⟩

/-- The 800×600 viewport of the scenario. -/
def scenarioCanvas : Canvas := ⟨800, 600⟩

/-- The canvas matrix the scenario produces: 120 rows × 160 columns of 0. -/
def scenarioCanvasMatrix : List (List ℕ) :=
  List.replicate 120 (List.replicate 160 0)

/-- The routing matrix the scenario produces: 1 exactly at matrix rows
20..31 and matrix columns 20..32 (grid columns 19..31 and grid rows 19..30
shifted by the adjustment factors `hAdjustmentFactor = vAdjustmentFactor =
1`), 0 everywhere else. -/
def scenarioRoutingMatrix : List (List ℕ) :=
  (List.range 120).map fun r => (List.range 160).map fun c =>
    if 20 ≤ r ∧ r ≤ 31 ∧ 20 ≤ c ∧ c ≤ 32 then 1 else 0

/-- The factory state after computing the routing matrix of the scenario. -/
def scenarioFinalState : FactoryState :=
  { canvasMatrix := scenarioCanvasMatrix, routingMatrix := scenarioRoutingMatrix,
    hAdjustmentFactor := 1, vAdjustmentFactor := 1 }

/-- A small geometry for instantiating the general theorems concretely: a
20×20 viewport and one node at the origin of size 2×2. -/
def smallNode : Box := ⟨0, 0, 2, 2⟩

/-- The small geometry snapshot: one node, no links. -/
def smallModel : DiagramModel := ⟨[smallNode], []⟩

/-- The 20×20 viewport of the small geometry. -/
def smallCanvas : Canvas := ⟨20, 20⟩

/-- Canvas matrix of the small geometry: 4×4 zeros. -/
def smallCanvasMatrix : List (List ℕ) := List.replicate 4 (List.replicate 4 0)

/-- Routing matrix of the small geometry: grid columns −1..2 and rows −1..1
shifted by the adjustment factors (both 1) mark matrix rows 0..2, columns
0..3; matrix row 3 stays free because the inner loop stops at `endY`. -/
def smallRoutingMatrix : List (List ℕ) :=
  [[1, 1, 1, 1], [1, 1, 1, 1], [1, 1, 1, 1], [0, 0, 0, 0]]

/-- Factory state after `getCanvasMatrix` on the small geometry. -/
def smallMidState : FactoryState :=
  { canvasMatrix := smallCanvasMatrix, routingMatrix := [],
    hAdjustmentFactor := 1, vAdjustmentFactor := 1 }

/-- Factory state after `getRoutingMatrix` on the small geometry. -/
def smallFinalState : FactoryState :=
  { canvasMatrix := smallCanvasMatrix, routingMatrix := smallRoutingMatrix,
    hAdjustmentFactor := 1, vAdjustmentFactor := 1 }

/-- A node placed at (−200, −200) of size 50×50. -/
def negNode : Box := ⟨-200, -200, 50, 50⟩

/-- Geometry with only the negatively positioned node. -/
def negModel : DiagramModel := ⟨[negNode], []⟩

/-! ### Helper lemmas -/

theorem qIndex_intCast_eq_some {n : ℤ} {c : ℕ} :
    qIndex (n : ℚ) = some c ↔ n = (c : ℤ) := by
  simp only [qIndex, Rat.den_intCast, Rat.num_intCast]
  split_ifs with h
  · simp only [Option.some.injEq]
    omega
  · constructor
    · intro hc
      exact absurd hc (by simp)
    · intro hc
      exact absurd ⟨by trivial, by omega⟩ h

theorem translateRoutingX_int (A gx : ℤ) :
    translateRoutingX (A : ℚ) (gx : ℚ) = ((gx + A : ℤ) : ℚ) := by
  simp only [translateRoutingX, Bool.false_eq_true, if_false, mul_one]
  push_cast
  ring

theorem translateRoutingY_int (A gy : ℤ) :
    translateRoutingY (A : ℚ) (gy : ℚ) = ((gy + A : ℤ) : ℚ) := by
  simp only [translateRoutingY, Bool.false_eq_true, if_false, mul_one]
  push_cast
  ring

theorem qIndex_translateX (A gx : ℤ) (c : ℕ) :
    qIndex (translateRoutingX (A : ℚ) (gx : ℚ)) = some c ↔
      translateRoutingX (A : ℚ) (gx : ℚ) = (c : ℚ) := by
  rw [translateRoutingX_int, qIndex_intCast_eq_some]
  constructor
  · intro h
    exact_mod_cast congrArg (fun z : ℤ => (z : ℚ)) h
  · intro h
    exact_mod_cast h

theorem qIndex_translateY (A gy : ℤ) (r : ℕ) :
    qIndex (translateRoutingY (A : ℚ) (gy : ℚ)) = some r ↔
      translateRoutingY (A : ℚ) (gy : ℚ) = (r : ℚ) := by
  rw [translateRoutingY_int, qIndex_intCast_eq_some]
  constructor
  · intro h
    exact_mod_cast congrArg (fun z : ℤ => (z : ℚ)) h
  · intro h
    exact_mod_cast h

theorem mem_intRange {lo hi a : ℤ} : a ∈ intRange lo hi ↔ lo ≤ a ∧ a ≤ hi := by
  unfold intRange
  simp only [List.mem_map, List.mem_range]
  constructor
  · rintro ⟨i, hmem, rfl⟩
    omega
  · rintro ⟨h1, h2⟩
    exact ⟨(a - lo).toNat, by omega, by omega⟩

theorem mem_paddedCells {b : Box} {p : ℤ × ℤ} :
    p ∈ paddedCells b ↔ inPaddedBox b p.1 p.2 := by
  obtain ⟨gx, gy⟩ := p
  simp only [paddedCells, inPaddedBox, List.mem_flatten, List.mem_map]
  constructor
  · rintro ⟨l, ⟨gx0, hgx0, rfl⟩, hmem⟩
    simp only [List.mem_map, Prod.mk.injEq] at hmem
    obtain ⟨gy0, hgy0, rfl, rfl⟩ := hmem
    rw [mem_intRange] at hgx0 hgy0
    exact ⟨hgx0.1, hgx0.2, hgy0.1, hgy0.2⟩
  · rintro ⟨h1, h2, h3, h4⟩
    exact ⟨_, ⟨gx, mem_intRange.mpr ⟨h1, h2⟩, rfl⟩,
      List.mem_map.mpr ⟨gy, mem_intRange.mpr ⟨h3, h4⟩, rfl⟩⟩

theorem length_markMatrixPoint (M : List (List ℕ)) (x y : ℚ) :
    (markMatrixPoint M x y).length = M.length := by
  unfold markMatrixPoint
  repeat' split
  all_goals first
    | rfl
    | exact List.length_set ..

theorem rowAt_length_markMatrixPoint (M : List (List ℕ)) (x y : ℚ) (r : ℕ) :
    (rowAt (markMatrixPoint M x y) r).length = (rowAt M r).length := by
  unfold markMatrixPoint
  split
  · rfl
  next r0 hy =>
    split
    · rfl
    next row hM =>
      split
      · rfl
      next c0 hx =>
        split
        · unfold rowAt
          rcases eq_or_ne r0 r with rfl | hne
          · rw [List.getElem?_set_self', hM]
            simp [List.length_set]
          · rw [List.getElem?_set_ne hne]
        · rfl

theorem cellAt_markMatrixPoint (M : List (List ℕ)) (x y : ℚ) (r c : ℕ) :
    cellAt (markMatrixPoint M x y) r c =
      if qIndex y = some r ∧ qIndex x = some c ∧ c < (rowAt M r).length then 1
      else cellAt M r c := by
  unfold markMatrixPoint
  split
  next hy =>
    rw [if_neg (by rintro ⟨h1, -, -⟩; rw [hy] at h1; exact Option.noConfusion h1)]
  next r0 hy =>
    split
    next hM =>
      rw [if_neg]
      rintro ⟨h1, -, h3⟩
      rw [hy] at h1
      obtain rfl : r0 = r := by injection h1
      rw [rowAt, hM] at h3
      simp at h3
    next row hM =>
      have hrow : rowAt M r0 = row := by rw [rowAt, hM]; rfl
      split
      next hx =>
        rw [if_neg (by rintro ⟨-, h2, -⟩; rw [hx] at h2; exact Option.noConfusion h2)]
      next c0 hx =>
        split_ifs with hlt hcond hcond
        · -- write happened and the condition claims a hit
          obtain ⟨h1, h2, h3⟩ := hcond
          rw [hy] at h1
          rw [hx] at h2
          obtain rfl : r0 = r := by injection h1
          obtain rfl : c0 = c := by injection h2
          unfold cellAt rowAt
          rw [List.getElem?_set_self', hM]
          simp only [Option.map_eq_map, Option.map_some', Function.const_apply,
            Option.getD_some]
          rw [List.getElem?_set_self hlt]
          rfl
        · -- write happened elsewhere: the cell keeps its old value
          unfold cellAt rowAt
          rcases eq_or_ne r0 r with rfl | hner
          · rcases eq_or_ne c0 c with rfl | hnec
            · exact absurd ⟨hy, hx, by rw [hrow]; exact hlt⟩ hcond
            · rw [List.getElem?_set_self', hM]
              simp only [Option.map_eq_map, Option.map_some', Function.const_apply,
                Option.getD_some, List.getElem?_set_ne hnec]
          · rw [List.getElem?_set_ne hner]
        · -- no write because the column is out of range, yet the condition
          -- claims a hit: impossible
          obtain ⟨h1, h2, h3⟩ := hcond
          rw [hy] at h1
          rw [hx] at h2
          obtain rfl : r0 = r := by injection h1
          obtain rfl : c0 = c := by injection h2
          rw [hrow] at h3
          exact absurd h3 hlt
        · rfl

theorem rowAt_length_foldl_mark (hq vq : ℚ) (ps : List (ℤ × ℤ))
    (M : List (List ℕ)) (r : ℕ) :
    (rowAt (ps.foldl (markTranslated hq vq) M) r).length = (rowAt M r).length := by
  induction ps generalizing M with
  | nil => rfl
  | cons p ps ih =>
    rw [List.foldl_cons, ih]
    exact rowAt_length_markMatrixPoint ..

theorem length_foldl_mark (hq vq : ℚ) (ps : List (ℤ × ℤ))
    (M : List (List ℕ)) :
    (ps.foldl (markTranslated hq vq) M).length = M.length := by
  induction ps generalizing M with
  | nil => rfl
  | cons p ps ih =>
    rw [List.foldl_cons, ih]
    exact length_markMatrixPoint ..

theorem cellAt_foldl_mark_eq_one (hq vq : ℚ) (ps : List (ℤ × ℤ))
    (M : List (List ℕ)) (r c : ℕ) :
    cellAt (ps.foldl (markTranslated hq vq) M) r c = 1 ↔
      (∃ p ∈ ps, qIndex (translateRoutingY vq (p.2 : ℚ)) = some r ∧
        qIndex (translateRoutingX hq (p.1 : ℚ)) = some c ∧
        c < (rowAt M r).length) ∨ cellAt M r c = 1 := by
  induction ps generalizing M with
  | nil => simp
  | cons p ps ih =>
    rw [List.foldl_cons, ih]
    simp only [markTranslated, rowAt_length_markMatrixPoint]
    constructor
    · rintro (⟨q, hq2, hqr, hqc, hlen⟩ | hbase)
      · exact Or.inl ⟨q, List.mem_cons_of_mem _ hq2, hqr, hqc, hlen⟩
      · rw [cellAt_markMatrixPoint] at hbase
        split_ifs at hbase with hcond
        · exact Or.inl ⟨p, List.mem_cons_self .., hcond.1, hcond.2.1, hcond.2.2⟩
        · exact Or.inr hbase
    · rintro (⟨q, hq2, hqr, hqc, hlen⟩ | hbase)
      · rcases List.mem_cons.mp hq2 with rfl | hq3
        · right
          rw [cellAt_markMatrixPoint, if_pos ⟨hqr, hqc, hlen⟩]
        · exact Or.inl ⟨q, hq3, hqr, hqc, hlen⟩
      · right
        rw [cellAt_markMatrixPoint]
        split_ifs with hcond
        · rfl
        · exact hbase

theorem foldl_markBox_eq (hq vq : ℚ) (bs : List Box) (M : List (List ℕ)) :
    bs.foldl (markBox hq vq) M =
      ((bs.map paddedCells).flatten).foldl (markTranslated hq vq) M := by
  rw [List.foldl_flatten, List.foldl_map]
  rfl

theorem markNodesPorts_eq (hq vq : ℚ) (m : DiagramModel) (M : List (List ℕ)) :
    markPorts hq vq m (markNodes hq vq m M) =
      (((allNodesCoords m ++ allPortsCoords m).map paddedCells).flatten).foldl
        (markTranslated hq vq) M := by
  unfold markNodes markPorts
  rw [← List.foldl_append]
  exact foldl_markBox_eq ..

theorem cellAt_calculateCanvasMatrixGrid (d : MatrixDimensions) (r c : ℕ) :
    cellAt (calculateCanvasMatrixGrid d) r c = 0 := by
  unfold calculateCanvasMatrixGrid cellAt rowAt
  simp only [List.getElem?_replicate]
  split_ifs
  all_goals simp [List.getElem?_replicate]
  all_goals split_ifs
  all_goals rfl

theorem length_calculateCanvasMatrixGrid (d : MatrixDimensions) :
    (calculateCanvasMatrixGrid d).length =
      (⌈d.height / ROUTING_SCALING_FACTOR⌉ : ℤ).toNat := by
  unfold calculateCanvasMatrixGrid
  exact List.length_replicate ..

theorem rowAt_length_calculateCanvasMatrixGrid (d : MatrixDimensions) (r : ℕ)
    (hr : r < (⌈d.height / ROUTING_SCALING_FACTOR⌉ : ℤ).toNat) :
    (rowAt (calculateCanvasMatrixGrid d) r).length =
      (⌈d.width / ROUTING_SCALING_FACTOR⌉ : ℤ).toNat := by
  unfold calculateCanvasMatrixGrid rowAt
  simp [List.getElem?_replicate, hr]

theorem foldl_minStep_le (f : Box → ℚ) (bs : List Box) (b : Box) :
    f (bs.foldl (fun acc c => if f c < f acc then c else acc) b) ≤ f b ∧
    ∀ x ∈ bs, f (bs.foldl (fun acc c => if f c < f acc then c else acc) b) ≤ f x := by
  induction bs generalizing b with
  | nil => exact ⟨le_refl _, by simp⟩
  | cons c cs ih =>
    simp only [List.foldl_cons]
    constructor
    · refine le_trans (ih _).1 ?_
      split_ifs with h
      · exact le_of_lt h
      · exact le_refl _
    · intro x hx
      rcases List.mem_cons.mp hx with rfl | hx2
      · refine le_trans (ih _).1 ?_
        split_ifs with h
        · exact le_refl _
        · exact not_lt.mp h
      · exact (ih _).2 x hx2

theorem minBy_le (f : Box → ℚ) {l : List Box} {b0 : Box}
    (h : minBy f l = some b0) : ∀ b ∈ l, f b0 ≤ f b := by
  cases l with
  | nil => exact absurd h (by simp [minBy])
  | cons b bs =>
    simp only [minBy, Option.some.injEq] at h
    subst h
    intro x hx
    rcases List.mem_cons.mp hx with rfl | hx2
    · exact (foldl_minStep_le f bs x).1
    · exact (foldl_minStep_le f bs b).2 x hx2

theorem minBy_map_eq (f : Box → ℚ) (l : List Box) :
    (minBy f l).map f = listMinQ (l.map f) := by
  cases l with
  | nil => rfl
  | cons b bs =>
    simp only [minBy, listMinQ, List.map_cons, Option.map_some', Option.some.injEq]
    rw [List.foldl_map]
    induction bs generalizing b with
    | nil => rfl
    | cons c cs ih =>
      rw [List.foldl_cons, List.foldl_cons, ih]
      congr 1
      split_ifs with h
      · exact (min_eq_right (le_of_lt h)).symm
      · exact (min_eq_left (not_lt.mp h)).symm

theorem maxBy_map_eq (f : Box → ℚ) (l : List Box) :
    (maxBy f l).map f = listMaxQ (l.map f) := by
  cases l with
  | nil => rfl
  | cons b bs =>
    simp only [maxBy, listMaxQ, List.map_cons, Option.map_some', Option.some.injEq]
    rw [List.foldl_map]
    induction bs generalizing b with
    | nil => rfl
    | cons c cs ih =>
      rw [List.foldl_cons, List.foldl_cons, ih]
      congr 1
      split_ifs with h
      · exact (max_eq_right (le_of_lt h)).symm
      · exact (max_eq_left (not_lt.mp h)).symm

theorem calculateMatrixDimensions_some {m : DiagramModel} {canvas : Canvas}
    {d : MatrixDimensions} (h : calculateMatrixDimensions m canvas = some d) :
    ∃ minXel maxXel minYel maxYel,
      minBy (fun b => b.x) (allCoords m) = some minXel ∧
      maxBy (fun b => b.x + b.width) (allCoords m) = some maxXel ∧
      minBy (fun b => b.y) (allCoords m) = some minYel ∧
      maxBy (fun b => b.y + b.height) (allCoords m) = some maxYel ∧
      d = dimsOf minXel maxXel minYel maxYel canvas := by
  unfold calculateMatrixDimensions at h
  rcases h1 : minBy (fun b => b.x) (allCoords m) with - | minXel <;> rw [h1] at h
  · simp at h
  rcases h2 : maxBy (fun b => b.x + b.width) (allCoords m) with - | maxXel <;>
    rw [h2] at h
  · simp at h
  rcases h3 : minBy (fun b => b.y) (allCoords m) with - | minYel <;> rw [h3] at h
  · simp at h
  rcases h4 : maxBy (fun b => b.y + b.height) (allCoords m) with - | maxYel <;>
    rw [h4] at h
  · simp at h
  refine ⟨minXel, maxXel, minYel, maxYel, rfl, rfl, rfl, rfl, ?_⟩
  dsimp only at h
  cases h
  rfl

theorem dimsOf_adjustments (minXel maxXel minYel maxYel : Box) (canvas : Canvas) :
    (dimsOf minXel maxXel minYel maxYel canvas).hAdjustmentFactor =
      ((1 - ⌊min minXel.x 0 / ROUTING_SCALING_FACTOR⌋ : ℤ) : ℚ) ∧
    (dimsOf minXel maxXel minYel maxYel canvas).vAdjustmentFactor =
      ((1 - ⌊min minYel.y 0 / ROUTING_SCALING_FACTOR⌋ : ℤ) : ℚ) := by
  have hS : (0 : ℚ) < ROUTING_SCALING_FACTOR := by norm_num [ROUTING_SCALING_FACTOR]
  constructor
  · have hx : (⌊min minXel.x 0 / ROUTING_SCALING_FACTOR⌋ : ℤ) ≤ 0 := by
      have hq : min minXel.x 0 / ROUTING_SCALING_FACTOR ≤ 0 :=
        div_nonpos_iff.mpr (Or.inr ⟨min_le_right _ _, le_of_lt hS⟩)
      calc ⌊min minXel.x 0 / ROUTING_SCALING_FACTOR⌋ ≤ ⌊(0 : ℚ)⌋ :=
            Int.floor_le_floor hq
        _ = 0 := Int.floor_zero
    unfold dimsOf
    dsimp only
    rw [abs_of_nonpos
      (mul_nonpos_iff.mpr (Or.inr ⟨by exact_mod_cast hx, le_of_lt hS⟩))]
    rw [neg_div, mul_div_cancel_right₀ _ (ne_of_gt hS)]
    push_cast
    ring
  · have hy : (⌊min minYel.y 0 / ROUTING_SCALING_FACTOR⌋ : ℤ) ≤ 0 := by
      have hq : min minYel.y 0 / ROUTING_SCALING_FACTOR ≤ 0 :=
        div_nonpos_iff.mpr (Or.inr ⟨min_le_right _ _, le_of_lt hS⟩)
      calc ⌊min minYel.y 0 / ROUTING_SCALING_FACTOR⌋ ≤ ⌊(0 : ℚ)⌋ :=
            Int.floor_le_floor hq
        _ = 0 := Int.floor_zero
    unfold dimsOf
    dsimp only
    rw [abs_of_nonpos
      (mul_nonpos_iff.mpr (Or.inr ⟨by exact_mod_cast hy, le_of_lt hS⟩))]
    rw [neg_div, mul_div_cancel_right₀ _ (ne_of_gt hS)]
    push_cast
    ring

theorem floor_min_div_nonpos (q : ℚ) :
    ⌊min q 0 / ROUTING_SCALING_FACTOR⌋ ≤ 0 := by
  have hS : (0 : ℚ) < ROUTING_SCALING_FACTOR := by norm_num [ROUTING_SCALING_FACTOR]
  have hq : min q 0 / ROUTING_SCALING_FACTOR ≤ 0 :=
    div_nonpos_iff.mpr (Or.inr ⟨min_le_right _ _, le_of_lt hS⟩)
  calc ⌊min q 0 / ROUTING_SCALING_FACTOR⌋ ≤ ⌊(0 : ℚ)⌋ := Int.floor_le_floor hq
    _ = 0 := Int.floor_zero

theorem calculateCanvasMatrixGrid_all_zero (d : MatrixDimensions) :
    ∀ row ∈ calculateCanvasMatrixGrid d, ∀ v ∈ row, v = 0 := by
  intro row hrow v hv
  unfold calculateCanvasMatrixGrid at hrow
  have hr := List.eq_of_mem_replicate hrow
  subst hr
  exact List.eq_of_mem_replicate hv

theorem getCanvasMatrix_cached {m : DiagramModel} {canvas : Canvas}
    {s : FactoryState} (h : s.canvasMatrix ≠ []) :
    getCanvasMatrix m canvas s = some (s.canvasMatrix, s) := by
  unfold getCanvasMatrix
  rw [if_neg (by simpa [List.length_eq_zero] using h)]

theorem getRoutingMatrix_cached {m : DiagramModel} {canvas : Canvas}
    {s : FactoryState} (h : s.routingMatrix ≠ []) :
    getRoutingMatrix m canvas s = some (s.routingMatrix, s) := by
  unfold getRoutingMatrix
  rw [if_neg (by simpa [List.length_eq_zero] using h)]

theorem getCanvasMatrix_fresh {m : DiagramModel} {canvas : Canvas}
    {s : FactoryState} {cm : List (List ℕ)} {s1 : FactoryState}
    (hs : s.canvasMatrix = [])
    (hg : getCanvasMatrix m canvas s = some (cm, s1)) :
    ∃ d, calculateMatrixDimensions m canvas = some d ∧
      cm = calculateCanvasMatrixGrid d ∧
      s1 = { s with
              canvasMatrix := calculateCanvasMatrixGrid d
              hAdjustmentFactor := d.hAdjustmentFactor
              vAdjustmentFactor := d.vAdjustmentFactor } := by
  unfold getCanvasMatrix at hg
  rw [if_pos (by rw [hs]; rfl)] at hg
  unfold calculateCanvasMatrix at hg
  rcases hd : calculateMatrixDimensions m canvas with - | d <;> rw [hd] at hg
  · simp at hg
  · simp only [Option.map_some', Option.some.injEq, Prod.mk.injEq] at hg
    obtain ⟨h1, h2⟩ := hg
    exact ⟨d, rfl, h1.symm, h2.symm⟩

theorem getCanvasMatrix_state {m : DiagramModel} {canvas : Canvas}
    {s : FactoryState} {cm : List (List ℕ)} {s1 : FactoryState}
    (hg : getCanvasMatrix m canvas s = some (cm, s1)) :
    s1.canvasMatrix = cm := by
  unfold getCanvasMatrix at hg
  split_ifs at hg with hlen
  · unfold calculateCanvasMatrix at hg
    rcases hd : calculateMatrixDimensions m canvas with - | d <;> rw [hd] at hg
    · simp at hg
    · simp only [Option.map_some', Option.some.injEq, Prod.mk.injEq] at hg
      obtain ⟨h1, h2⟩ := hg
      rw [← h2]
      exact h1
  · simp only [Option.some.injEq, Prod.mk.injEq] at hg
    obtain ⟨h1, h2⟩ := hg
    rw [← h2]
    exact h1

theorem calculateRoutingMatrix_of_fresh {m : DiagramModel} {canvas : Canvas}
    {s s' : FactoryState} (hs : s.canvasMatrix = [])
    (h : calculateRoutingMatrix m canvas s = some s') :
    ∃ d, calculateMatrixDimensions m canvas = some d ∧
      s'.canvasMatrix = calculateCanvasMatrixGrid d ∧
      s'.hAdjustmentFactor = d.hAdjustmentFactor ∧
      s'.vAdjustmentFactor = d.vAdjustmentFactor ∧
      s'.routingMatrix =
        markPorts d.hAdjustmentFactor d.vAdjustmentFactor m
          (markNodes d.hAdjustmentFactor d.vAdjustmentFactor m
            (calculateCanvasMatrixGrid d)) := by
  unfold calculateRoutingMatrix at h
  rcases hg : getCanvasMatrix m canvas s with - | p <;> rw [hg] at h
  · simp at h
  · obtain ⟨cm, s1, rfl⟩ : ∃ cm s1, p = (cm, s1) := ⟨p.1, p.2, rfl⟩
    obtain ⟨d, hd, hcm, hs1⟩ := getCanvasMatrix_fresh hs hg
    simp only [Option.map_some', Option.some.injEq] at h
    subst hcm
    subst hs1
    subst h
    exact ⟨d, hd, rfl, rfl, rfl, rfl⟩

/-! ### Claim theorems -/

/-- C2: when the geometry snapshot contains no nodes and no links, the
dimension computation does NOT succeed: lodash `minBy` over the empty box
concatenation yields `undefined` and the subsequent `.x` access faults
(modelled as `none`); there is no viewport-only fallback.  This contradicts
the claim, which demands a successful viewport-only result, so the claim is
recorded as a code bug and this theorem evaluates the code at the failing
input. -/
theorem calculateMatrixDimensions_empty_geometry_faults (canvas : Canvas) :
    calculateMatrixDimensions { nodes := [], links := [] } canvas = none :=
  rfl

/-- C6: for every real coordinate `v` and every adjustment factor `a`,
translating to grid space (`reverse = false`) and then back to diagram
space (`reverse = true`) is the identity on each axis. -/
theorem translate_round_trip (a v : ℚ) :
    translateRoutingX a (translateRoutingX a v) true = v ∧
    translateRoutingY a (translateRoutingY a v) true = v := by
  constructor
  · simp only [translateRoutingX]
    ring_nf
    simp
  · simp only [translateRoutingY]
    ring_nf
    simp

/-- C9: `generateDynamicPath` on at least one grid point emits a `moveto`
at the first point scaled by the scaling factor followed by one `lineto`
per further point, in input order, with no smoothing and no deduplication;
concretely, `[(0,0), (2,3)]` with scaling factor 5 yields move-to (0,0)
then line-to (10,15). -/
theorem generateDynamicPath_spec :
    (∀ (p : ℚ × ℚ) (rest : List (ℚ × ℚ)),
      generateDynamicPath (p :: rest) =
        some (PathCommand.moveto (p.1 * ROUTING_SCALING_FACTOR)
            (p.2 * ROUTING_SCALING_FACTOR)
          :: rest.map fun c =>
            PathCommand.lineto (c.1 * ROUTING_SCALING_FACTOR)
              (c.2 * ROUTING_SCALING_FACTOR))) ∧
    generateDynamicPath [(0, 0), (2, 3)] =
      some [PathCommand.moveto 0 0, PathCommand.lineto 10 15] := by
  constructor
  · intro p rest
    rfl
  · with_unfolding_all decide

/-- C4: whenever the dimension computation succeeds, both adjustment
factors are non-negative, and for every node, port and waypoint bounding
box (all members of `allCoords`, also negatively positioned ones) every
grid index of the padded rasterization rectangle is non-negative after
translation. -/
theorem adjustment_factors_nonneg {m : DiagramModel} {canvas : Canvas}
    {d : MatrixDimensions} (h : calculateMatrixDimensions m canvas = some d) :
    0 ≤ d.hAdjustmentFactor ∧ 0 ≤ d.vAdjustmentFactor ∧
    ∀ b ∈ allCoords m, ∀ gx gy : ℤ, inPaddedBox b gx gy →
      0 ≤ translateRoutingX d.hAdjustmentFactor (gx : ℚ) ∧
      0 ≤ translateRoutingY d.vAdjustmentFactor (gy : ℚ) := by
  obtain ⟨e1, e2, e3, e4, he1, he2, he3, he4, hdval⟩ :=
    calculateMatrixDimensions_some h
  obtain ⟨hha, hva⟩ := dimsOf_adjustments e1 e2 e3 e4 canvas
  rw [← hdval] at hha hva
  have hS : (0 : ℚ) < ROUTING_SCALING_FACTOR := by norm_num [ROUTING_SCALING_FACTOR]
  have hzx : ⌊min e1.x 0 / ROUTING_SCALING_FACTOR⌋ ≤ 0 := floor_min_div_nonpos _
  have hzy : ⌊min e3.y 0 / ROUTING_SCALING_FACTOR⌋ ≤ 0 := floor_min_div_nonpos _
  refine ⟨?_, ?_, ?_⟩
  · rw [hha]
    have : (0 : ℤ) ≤ 1 - ⌊min e1.x 0 / ROUTING_SCALING_FACTOR⌋ := by omega
    exact_mod_cast this
  · rw [hva]
    have : (0 : ℤ) ≤ 1 - ⌊min e3.y 0 / ROUTING_SCALING_FACTOR⌋ := by omega
    exact_mod_cast this
  · intro b hb gx gy hpad
    obtain ⟨hp1, hp2, hp3, hp4⟩ := hpad
    have hbx : min e1.x 0 ≤ b.x := le_trans (min_le_left _ _) (minBy_le _ he1 b hb)
    have hby : min e3.y 0 ≤ b.y := le_trans (min_le_left _ _) (minBy_le _ he3 b hb)
    have hfx : ⌊min e1.x 0 / ROUTING_SCALING_FACTOR⌋ ≤
        ⌊b.x / ROUTING_SCALING_FACTOR⌋ :=
      Int.floor_le_floor ((div_le_div_iff_of_pos_right hS).mpr hbx)
    have hfy : ⌊min e3.y 0 / ROUTING_SCALING_FACTOR⌋ ≤
        ⌊b.y / ROUTING_SCALING_FACTOR⌋ :=
      Int.floor_le_floor ((div_le_div_iff_of_pos_right hS).mpr hby)
    constructor
    · rw [hha, translateRoutingX_int]
      have : (0 : ℤ) ≤ gx + (1 - ⌊min e1.x 0 / ROUTING_SCALING_FACTOR⌋) := by
        omega
      exact_mod_cast this
    · rw [hva, translateRoutingY_int]
      have : (0 : ℤ) ≤ gy + (1 - ⌊min e3.y 0 / ROUTING_SCALING_FACTOR⌋) := by
        omega
      exact_mod_cast this

set_option maxRecDepth 100000 in
/-- Witness for C4: instantiated at the node placed at (−200, −200) with an
800×600 viewport, whose computed adjustment factors are both 41. -/
theorem adjustment_factors_nonneg_witness :
    0 ≤ (⟨1000, 41, 800, 41⟩ : MatrixDimensions).hAdjustmentFactor ∧
    0 ≤ (⟨1000, 41, 800, 41⟩ : MatrixDimensions).vAdjustmentFactor ∧
    ∀ b ∈ allCoords negModel, ∀ gx gy : ℤ, inPaddedBox b gx gy →
      0 ≤ translateRoutingX
        (⟨1000, 41, 800, 41⟩ : MatrixDimensions).hAdjustmentFactor (gx : ℚ) ∧
      0 ≤ translateRoutingY
        (⟨1000, 41, 800, 41⟩ : MatrixDimensions).vAdjustmentFactor (gy : ℚ) :=
  @adjustment_factors_nonneg negModel scenarioCanvas ⟨1000, 41, 800, 41⟩
    (by with_unfolding_all decide)

/-- C5: for every non-empty geometry set, `calculateMatrixDimensions`
returns exactly the record the spec formula prescribes: `minX =
floor(min(0, min of box.x)/s)×s`, `maxX = max(max of box.x+box.width,
viewport width)` (symmetrically in Y), `width = ceil(|minX| + maxX)`,
`height = ceil(|minY| + maxY)`, `hAdjustment = |minX|/s + 1`,
`vAdjustment = |minY|/s + 1` — as captured by `specMatrixDimensions`,
which takes plain list minima/maxima. -/
theorem calculateMatrixDimensions_matches_spec_formula {m : DiagramModel}
    {canvas : Canvas} (h : allCoords m ≠ []) :
    ∃ d, calculateMatrixDimensions m canvas = some d ∧
      specMatrixDimensions m canvas = some d := by
  obtain ⟨b, bs, hbs⟩ : ∃ b bs, allCoords m = b :: bs := by
    cases hc : allCoords m with
    | nil => exact absurd hc h
    | cons b bs => exact ⟨b, bs, rfl⟩
  obtain ⟨e1, he1⟩ : ∃ e, minBy (fun bb => bb.x) (allCoords m) = some e := by
    rw [hbs]; exact ⟨_, rfl⟩
  obtain ⟨e2, he2⟩ : ∃ e, maxBy (fun bb => bb.x + bb.width) (allCoords m) =
      some e := by
    rw [hbs]; exact ⟨_, rfl⟩
  obtain ⟨e3, he3⟩ : ∃ e, minBy (fun bb => bb.y) (allCoords m) = some e := by
    rw [hbs]; exact ⟨_, rfl⟩
  obtain ⟨e4, he4⟩ : ∃ e, maxBy (fun bb => bb.y + bb.height) (allCoords m) =
      some e := by
    rw [hbs]; exact ⟨_, rfl⟩
  have hL1 : listMinQ ((allCoords m).map fun bb => bb.x) = some e1.x := by
    have hmap := minBy_map_eq (fun bb => bb.x) (allCoords m)
    rw [he1] at hmap
    simpa using hmap.symm
  have hL2 : listMaxQ ((allCoords m).map fun bb => bb.x + bb.width) =
      some (e2.x + e2.width) := by
    have hmap := maxBy_map_eq (fun bb => bb.x + bb.width) (allCoords m)
    rw [he2] at hmap
    simpa using hmap.symm
  have hL3 : listMinQ ((allCoords m).map fun bb => bb.y) = some e3.y := by
    have hmap := minBy_map_eq (fun bb => bb.y) (allCoords m)
    rw [he3] at hmap
    simpa using hmap.symm
  have hL4 : listMaxQ ((allCoords m).map fun bb => bb.y + bb.height) =
      some (e4.y + e4.height) := by
    have hmap := maxBy_map_eq (fun bb => bb.y + bb.height) (allCoords m)
    rw [he4] at hmap
    simpa using hmap.symm
  have hcode : calculateMatrixDimensions m canvas =
      some (dimsOf e1 e2 e3 e4 canvas) := by
    unfold calculateMatrixDimensions
    rw [he1, he2, he3, he4]
    rfl
  have hspec : specMatrixDimensions m canvas =
      some (dimsOf e1 e2 e3 e4 canvas) := by
    unfold specMatrixDimensions
    rw [hL1, hL2, hL3, hL4]
    unfold dimsOf
    dsimp only
    rw [min_comm 0 e1.x, min_comm 0 e3.y]
  exact ⟨_, hcode, hspec⟩

/-- Witness for C5: instantiated at the 800×600 scenario geometry. -/
theorem calculateMatrixDimensions_matches_spec_formula_witness :
    ∃ d, calculateMatrixDimensions scenarioModel scenarioCanvas = some d ∧
      specMatrixDimensions scenarioModel scenarioCanvas = some d :=
  calculateMatrixDimensions_matches_spec_formula (by with_unfolding_all decide)

/-- C1 (amended): starting from an empty canvas-matrix cache, a cell of the
computed routing matrix is 1 exactly when some node or port box has a loop
pair `(gx, gy)` — columns `⌊x/s⌋−1 .. ⌈(x+width)/s⌉+1`, rows `⌊y/s⌋−1 ..
⌈(y+height)/s⌉` (the row upper bound carries no `+1` because the inner loop
condition is `y < endY + 1`) — whose translation by the stored adjustment
factors lands on that cell; out-of-range translated writes are silently
dropped (the iff is stated over in-bounds cells, and cells are in bounds of
the canvas matrix shape). -/
theorem rasterization_marks_exactly_padded_cells {m : DiagramModel}
    {canvas : Canvas} {s s' : FactoryState} (hs : s.canvasMatrix = [])
    (h : calculateRoutingMatrix m canvas s = some s') (r c : ℕ)
    (_hr : r < s'.routingMatrix.length)
    (hc : c < (rowAt s'.routingMatrix r).length) :
    cellAt s'.routingMatrix r c = 1 ↔
      ∃ b ∈ allNodesCoords m ++ allPortsCoords m, ∃ gx gy : ℤ,
        inPaddedBox b gx gy ∧
        translateRoutingX s'.hAdjustmentFactor (gx : ℚ) = (c : ℚ) ∧
        translateRoutingY s'.vAdjustmentFactor (gy : ℚ) = (r : ℚ) := by
  obtain ⟨d, hd, hcm, hh, hv, hrm⟩ := calculateRoutingMatrix_of_fresh hs h
  obtain ⟨e1, e2, e3, e4, he1, he2, he3, he4, hdval⟩ :=
    calculateMatrixDimensions_some hd
  obtain ⟨hha, hva⟩ := dimsOf_adjustments e1 e2 e3 e4 canvas
  rw [← hdval] at hha hva
  rw [hrm, markNodesPorts_eq] at hc ⊢
  rw [rowAt_length_foldl_mark] at hc
  rw [cellAt_foldl_mark_eq_one]
  rw [hh, hv, hha, hva]
  constructor
  · rintro (⟨p, hp, hqr, hqc, -⟩ | hzero)
    · rw [List.mem_flatten] at hp
      obtain ⟨l, hl, hpl⟩ := hp
      rw [List.mem_map] at hl
      obtain ⟨b, hb, rfl⟩ := hl
      rw [mem_paddedCells] at hpl
      exact ⟨b, hb, p.1, p.2, hpl, (qIndex_translateX _ _ _).mp hqc,
        (qIndex_translateY _ _ _).mp hqr⟩
    · rw [cellAt_calculateCanvasMatrixGrid] at hzero
      exact absurd hzero (by decide)
  · rintro ⟨b, hb, gx, gy, hpad, htx, hty⟩
    left
    refine ⟨(gx, gy), ?_, ?_, ?_, hc⟩
    · rw [List.mem_flatten]
      exact ⟨paddedCells b, List.mem_map.mpr ⟨b, hb, rfl⟩,
        mem_paddedCells.mpr hpad⟩
    · exact (qIndex_translateY _ _ _).mpr hty
    · exact (qIndex_translateX _ _ _).mpr htx

set_option maxRecDepth 100000 in
/-- Witness for C1 (amended): instantiated at the small 20×20 geometry,
cell (0, 0). -/
theorem rasterization_marks_exactly_padded_cells_witness :
    cellAt smallFinalState.routingMatrix 0 0 = 1 ↔
      ∃ b ∈ allNodesCoords smallModel ++ allPortsCoords smallModel,
        ∃ gx gy : ℤ, inPaddedBox b gx gy ∧
          translateRoutingX smallFinalState.hAdjustmentFactor (gx : ℚ) =
            ((0 : ℕ) : ℚ) ∧
          translateRoutingY smallFinalState.vAdjustmentFactor (gy : ℚ) =
            ((0 : ℕ) : ℚ) :=
  @rasterization_marks_exactly_padded_cells smallModel smallCanvas
    initialState smallFinalState rfl (by with_unfolding_all decide) 0 0
    (by with_unfolding_all decide) (by with_unfolding_all decide)

set_option maxRecDepth 100000 in
/-- Counterexample to C1 as stated: in the small 20×20 geometry the claim's
padded rectangle for the node box runs through row `⌈(y+height)/s⌉ + 1 = 2`;
the grid pair `(0, 2)` lies in that rectangle, its translated indices
`(1, 3)` are within the matrix bounds, yet the routing-matrix cell (3, 1)
is 0: the inner loop stops one row earlier than the claim says. -/
theorem rasterization_row_padding_counterexample :
    calculateRoutingMatrix smallModel smallCanvas initialState =
      some smallFinalState ∧
    (⌊smallNode.y / ROUTING_SCALING_FACTOR⌋ - 1 ≤ (2 : ℤ) ∧
      (2 : ℤ) ≤ ⌈(smallNode.y + smallNode.height) / ROUTING_SCALING_FACTOR⌉ + 1) ∧
    (⌊smallNode.x / ROUTING_SCALING_FACTOR⌋ - 1 ≤ (0 : ℤ) ∧
      (0 : ℤ) ≤ ⌈(smallNode.x + smallNode.width) / ROUTING_SCALING_FACTOR⌉ + 1) ∧
    translateRoutingX smallFinalState.hAdjustmentFactor ((0 : ℤ) : ℚ) =
      ((1 : ℕ) : ℚ) ∧
    translateRoutingY smallFinalState.vAdjustmentFactor ((2 : ℤ) : ℚ) =
      ((3 : ℕ) : ℚ) ∧
    3 < smallFinalState.routingMatrix.length ∧
    1 < (rowAt smallFinalState.routingMatrix 3).length ∧
    cellAt smallFinalState.routingMatrix 3 1 = 0 := by
  with_unfolding_all decide

/-- C7: computing the routing matrix never changes the canvas matrix: the
state after `calculateRoutingMatrix` still carries exactly the canvas
matrix that `getCanvasMatrix` returned (marking happens on a copy), and
when the computation started from an empty cache every cell of that canvas
matrix is 0. -/
theorem calculateRoutingMatrix_preserves_canvasMatrix {m : DiagramModel}
    {canvas : Canvas} {s s' : FactoryState} {cm : List (List ℕ)}
    {s1 : FactoryState} (h : calculateRoutingMatrix m canvas s = some s')
    (hg : getCanvasMatrix m canvas s = some (cm, s1)) :
    s'.canvasMatrix = cm ∧ s1.canvasMatrix = cm ∧
      (s.canvasMatrix = [] → ∀ row ∈ cm, ∀ v ∈ row, v = 0) := by
  unfold calculateRoutingMatrix at h
  rw [hg] at h
  simp only [Option.map_some', Option.some.injEq] at h
  subst h
  have hstate : s1.canvasMatrix = cm := getCanvasMatrix_state hg
  refine ⟨hstate, hstate, ?_⟩
  intro hempty row hrow v hv
  obtain ⟨d, -, hcm, -⟩ := getCanvasMatrix_fresh hempty hg
  subst hcm
  exact calculateCanvasMatrixGrid_all_zero d row hrow v hv

set_option maxRecDepth 100000 in
/-- Witness for C7: instantiated at the small 20×20 geometry starting from
the fresh factory state. -/
theorem calculateRoutingMatrix_preserves_canvasMatrix_witness :
    smallFinalState.canvasMatrix = smallCanvasMatrix ∧
    smallMidState.canvasMatrix = smallCanvasMatrix ∧
    (initialState.canvasMatrix = [] →
      ∀ row ∈ smallCanvasMatrix, ∀ v ∈ row, v = 0) :=
  @calculateRoutingMatrix_preserves_canvasMatrix smallModel smallCanvas
    initialState smallFinalState smallCanvasMatrix smallMidState
    (by with_unfolding_all decide) (by with_unfolding_all decide)

/-- C8: `getCanvasMatrix` and `getRoutingMatrix` recompute only when the
corresponding cached field is empty and return the memoized field
otherwise; a second read from the state a read produced returns the same
value and state (no recomputation); invalidation clears both caches, and
the read right after an invalidation goes through exactly one
recomputation (`calculateRoutingMatrix`), after which the previous
conjunct applies again.  The `invalidate` operation is modelled from the
spec (it is not part of the source excerpt). -/
theorem matrix_cache_memoization (m : DiagramModel) (canvas : Canvas)
    (s : FactoryState) :
    (s.canvasMatrix ≠ [] →
      getCanvasMatrix m canvas s = some (s.canvasMatrix, s)) ∧
    (s.routingMatrix ≠ [] →
      getRoutingMatrix m canvas s = some (s.routingMatrix, s)) ∧
    (∀ M s', getRoutingMatrix m canvas s = some (M, s') → M ≠ [] →
      getRoutingMatrix m canvas s' = some (M, s')) ∧
    (invalidate s).canvasMatrix = [] ∧ (invalidate s).routingMatrix = [] ∧
    getRoutingMatrix m canvas (invalidate s) =
      (calculateRoutingMatrix m canvas (invalidate s)).map
        fun t => (t.routingMatrix, t) := by
  refine ⟨fun h => getCanvasMatrix_cached h, fun h => getRoutingMatrix_cached h,
    ?_, rfl, rfl, ?_⟩
  · intro M s' h hM
    unfold getRoutingMatrix at h
    split_ifs at h with hlen
    · rcases hcr : calculateRoutingMatrix m canvas s with - | t <;> rw [hcr] at h
      · simp at h
      · simp only [Option.map_some', Option.some.injEq, Prod.mk.injEq] at h
        obtain ⟨h1, h2⟩ := h
        subst h2
        rw [← h1] at hM ⊢
        exact getRoutingMatrix_cached hM
    · simp only [Option.some.injEq, Prod.mk.injEq] at h
      obtain ⟨h1, h2⟩ := h
      subst h2
      rw [← h1] at hM ⊢
      exact getRoutingMatrix_cached hM
  · unfold getRoutingMatrix
    have hzero : (invalidate s).routingMatrix.length = 0 := rfl
    rw [if_pos hzero]

set_option maxRecDepth 100000 in
/-- Witness for C8: instantiated at the small 20×20 geometry — cached reads
return the cached fields unchanged, the read after an invalidation
recomputes, and the state produced by a fresh read answers the next read
from its cache. -/
theorem matrix_cache_memoization_witness :
    getCanvasMatrix smallModel smallCanvas smallFinalState =
      some (smallFinalState.canvasMatrix, smallFinalState) ∧
    getRoutingMatrix smallModel smallCanvas smallFinalState =
      some (smallFinalState.routingMatrix, smallFinalState) ∧
    getRoutingMatrix smallModel smallCanvas (invalidate smallFinalState) =
      (calculateRoutingMatrix smallModel smallCanvas
        (invalidate smallFinalState)).map (fun t => (t.routingMatrix, t)) ∧
    getRoutingMatrix smallModel smallCanvas smallFinalState =
      some (smallRoutingMatrix, smallFinalState) :=
  ⟨(matrix_cache_memoization smallModel smallCanvas smallFinalState).1
      (by with_unfolding_all decide),
    (matrix_cache_memoization smallModel smallCanvas smallFinalState).2.1
      (by with_unfolding_all decide),
    (matrix_cache_memoization smallModel smallCanvas
      smallFinalState).2.2.2.2.2,
    (matrix_cache_memoization smallModel smallCanvas initialState).2.2.1
      smallRoutingMatrix smallFinalState (by with_unfolding_all decide)
      (by with_unfolding_all decide)⟩

/-- C10: a `getRoutingMatrix` call on a state with both caches empty also
computes and stores the canvas matrix and both adjustment factors before
marking: afterwards the state carries the canvas matrix and the dimension
record's adjustment factors, the returned routing matrix is exactly the
canvas matrix marked with those same stored factors, and a subsequent
`getCanvasMatrix` returns the memoized canvas matrix without
recomputation. -/
theorem getRoutingMatrix_computes_canvas_first {m : DiagramModel}
    {canvas : Canvas} {s : FactoryState} {M : List (List ℕ)}
    {s' : FactoryState} (hc : s.canvasMatrix = []) (hr : s.routingMatrix = [])
    (h : getRoutingMatrix m canvas s = some (M, s')) :
    ∃ d, calculateMatrixDimensions m canvas = some d ∧
      s'.canvasMatrix = calculateCanvasMatrixGrid d ∧
      s'.hAdjustmentFactor = d.hAdjustmentFactor ∧
      s'.vAdjustmentFactor = d.vAdjustmentFactor ∧
      s'.routingMatrix = M ∧
      M = markPorts d.hAdjustmentFactor d.vAdjustmentFactor m
        (markNodes d.hAdjustmentFactor d.vAdjustmentFactor m
          (calculateCanvasMatrixGrid d)) ∧
      (s'.canvasMatrix ≠ [] →
        getCanvasMatrix m canvas s' = some (s'.canvasMatrix, s')) := by
  unfold getRoutingMatrix at h
  split_ifs at h with hlen
  · rcases hcr : calculateRoutingMatrix m canvas s with - | t <;> rw [hcr] at h
    · simp at h
    · simp only [Option.map_some', Option.some.injEq, Prod.mk.injEq] at h
      obtain ⟨h1, h2⟩ := h
      subst h2
      obtain ⟨d, hd, hcm, hh, hv, hrm⟩ := calculateRoutingMatrix_of_fresh hc hcr
      refine ⟨d, hd, hcm, hh, hv, h1, ?_, ?_⟩
      · rw [← h1, hrm]
      · intro hne
        exact getCanvasMatrix_cached hne
  · exact absurd (by rw [hr]; rfl) hlen

set_option maxRecDepth 100000 in
/-- Witness for C10: instantiated at the small 20×20 geometry starting from
the fresh factory state. -/
theorem getRoutingMatrix_computes_canvas_first_witness :
    ∃ d, calculateMatrixDimensions smallModel smallCanvas = some d ∧
      smallFinalState.canvasMatrix = calculateCanvasMatrixGrid d ∧
      smallFinalState.hAdjustmentFactor = d.hAdjustmentFactor ∧
      smallFinalState.vAdjustmentFactor = d.vAdjustmentFactor ∧
      smallFinalState.routingMatrix = smallRoutingMatrix ∧
      smallRoutingMatrix =
        markPorts d.hAdjustmentFactor d.vAdjustmentFactor smallModel
          (markNodes d.hAdjustmentFactor d.vAdjustmentFactor smallModel
            (calculateCanvasMatrixGrid d)) ∧
      (smallFinalState.canvasMatrix ≠ [] →
        getCanvasMatrix smallModel smallCanvas smallFinalState =
          some (smallFinalState.canvasMatrix, smallFinalState)) :=
  @getRoutingMatrix_computes_canvas_first smallModel smallCanvas
    initialState smallRoutingMatrix smallFinalState rfl rfl
    (by with_unfolding_all decide)

set_option maxRecDepth 1000000 in
set_option maxHeartbeats 8000000 in
/-- Counterexample to C3 as stated: the routing matrix the code computes is
`scenarioRoutingMatrix` (1 exactly at matrix rows 20..31, columns 20..32),
while the claim says exactly grid columns 19..31 and rows 19..31 hold 1.
Read as matrix indices, cell (19, 19) would be 1 and cell (20, 32) would
be 0 — but they are 0 and 1.  Read as pre-translation grid coordinates,
grid row 31 would be marked, i.e. matrix cell (32, 26) would be 1 — but it
is 0.  Under either reading the claimed set of 1-cells is wrong. -/
theorem scenario_claimed_cells_counterexample :
    getRoutingMatrix scenarioModel scenarioCanvas initialState =
      some (scenarioRoutingMatrix, scenarioFinalState) ∧
    cellAt scenarioRoutingMatrix 19 19 = 0 ∧
    cellAt scenarioRoutingMatrix 20 32 = 1 ∧
    cellAt scenarioRoutingMatrix 32 26 = 0 := by
  refine ⟨by with_unfolding_all decide, ?_, ?_, ?_⟩
  all_goals with_unfolding_all decide

set_option maxRecDepth 1000000 in
set_option maxHeartbeats 8000000 in
/-- C3 (amended): for the 800×600 viewport with one node at (100, 100) of
size 50×50 and scaling factor 5, the canvas matrix has 120 rows of 160
columns, and the routing matrix is exactly `scenarioRoutingMatrix`: 1 at
the cells with matrix rows 20..31 and matrix columns 20..32 (the node's
grid cells (20,20)-(30,30) padded by one cell on each side in x but only
on the low side in y, then shifted by the adjustment factors h = v = 1),
0 everywhere else. -/
theorem scenario_routing_matrix_cells :
    getRoutingMatrix scenarioModel scenarioCanvas initialState =
      some (scenarioRoutingMatrix, scenarioFinalState) ∧
    scenarioFinalState.canvasMatrix.length = 120 ∧
    (∀ row ∈ scenarioFinalState.canvasMatrix, row.length = 160) ∧
    scenarioRoutingMatrix.length = 120 ∧
    (∀ row ∈ scenarioRoutingMatrix, row.length = 160) := by
  refine ⟨by with_unfolding_all decide, ?_, ?_, ?_, ?_⟩
  all_goals with_unfolding_all decide

end PathFinding
